import Mathlib

/-
Verification of `annotate_plate.py`: a script that annotates wells of an
OMERO plate with key-value map records read from a CSV file.

The embedding models the OMERO backing store explicitly (plates, wells,
map records attached to wells) and the external `ezomero` calls as pure
operations on that store.  The script's control flow is embedded in the
`Except` monad; the log/print side effects are recorded as an `Event` list.
-/

namespace AnnotatePlate

/-- Fixed namespace constant of the script (`NAMESPACE` in the source). -/
def NAMESPACE : String := "jax.org/omeroutils/invitro_arsenic/plate_metadata/v0"

/-- The keys of the `DTYPES` dict in the source, in declaration order:
these are the six required CSV columns. -/
def DTYPES_cols : List String :=
  ["plate_name", "row", "column", "individual", "concentration", "compound"]

/-- A stored plate: numeric identifier and human-readable name. -/
structure Plate where
  id : Nat
  name : String
deriving DecidableEq, Repr

/-- A stored well: identifier, owning plate, zero-based row/column indices. -/
structure Well where
  id : Nat
  plateId : Nat
  row : Int
  col : Int
deriving DecidableEq, Repr

/-- A stored map record attached to a well: identifier, target well,
namespace string, and key-value payload (values carried opaquely as text). -/
structure MapAnn where
  id : Nat
  wellId : Nat
  ns : String
  kv : List (String × String)
deriving DecidableEq, Repr

/-- The OMERO backing store visible to the script: plates, wells, map
records on wells, and the next fresh record identifier. -/
structure Store where
  plates : List Plate
  wells : List Well
  anns : List MapAnn
  nextAnnId : Nat
deriving DecidableEq, Repr

/-- The error conditions raised by the script (each `raise ValueError`). -/
inductive RunError where
  | missingColumn (c : String)
  | plateNotFound (name : String)
  | plateAmbiguous (name : String)
  | wellNotFound (plateId : Nat) (rowIndex colIndex : Int)
deriving DecidableEq, Repr

/-- Observable log/print events of one run, in order of emission. -/
inductive Event where
  | warnExists (wellId : Nat)
  | warnSkip (wellId : Nat)
  | warnForce (maId wellId : Nat)
  | posted (maId wellId : Nat)
deriving DecidableEq, Repr

/-- One parsed CSV data row.  The source pops `plate_name`, `row` and
`column` out of the row dict; `rest` is everything left over, in column
order — exactly the `record` dict passed as the key-value payload. -/
structure CsvRecord where
  plate_name : String
  row : Int
  column : Int
  rest : List (String × String)
deriving DecidableEq, Repr

/-- A parsed CSV file: its header columns and its data rows. -/
structure Csv where
  columns : List String
  rows : List CsvRecord
deriving DecidableEq, Repr

/-- The HQL projection `SELECT pl.id FROM Plate pl WHERE pl.name=:pname`:
identifiers of all stored plates whose name equals `plate_name` exactly. -/
def plateQuery (st : Store) (plate_name : String) : List Nat :=
  (st.plates.filter (fun pl => pl.name == plate_name)).map (fun pl => pl.id)

/-- `get_plate_id` from the source: run the name query; zero results raise
"No plate found", more than one raise "Multiple plates found", otherwise
return the single identifier. -/
def get_plate_id (st : Store) (plate_name : String) : Except RunError Nat :=
  match plateQuery st plate_name with
  | [] => .error (.plateNotFound plate_name)
  | [i] => .ok i
  | _ :: _ :: _ => .error (.plateAmbiguous plate_name)

/-- Model of `ezomero.get_well_id`: the identifier of the well of plate
`plate_id` at the given zero-based row/column, or `none` if absent. -/
def get_well_id (st : Store) (plate_id : Nat) (row column : Int) : Option Nat :=
  (st.wells.find? (fun w => w.plateId == plate_id && w.row == row && w.col == column)).map
    (fun w => w.id)

/-- The stored map records attached to well `w` under namespace `ns`, in
store order. -/
def annsAt (st : Store) (w : Nat) (ns : String) : List MapAnn :=
  st.anns.filter (fun a => a.wellId == w && a.ns == ns)

/-- Model of `ezomero.get_map_annotation_ids` on a `"Well"` target:
identifiers of all map records attached to `well_id` under namespace `ns`,
in store order. -/
def get_map_ann_ids (st : Store) (well_id : Nat) (ns : String) : List Nat :=
  (annsAt st well_id ns).map (fun a => a.id)

/-- Model of `ezomero.post_map_annotation` on a `"Well"` target: attach a
fresh map record with the given payload and namespace, returning the new
store and the new record's identifier. -/
def post_map_ann (st : Store) (well_id : Nat) (kv : List (String × String)) (ns : String) :
    Store × Nat :=
  ({ st with
      anns := st.anns ++ [⟨st.nextAnnId, well_id, ns, kv⟩],
      nextAnnId := st.nextAnnId + 1 },
   st.nextAnnId)

/-- Model of `ezomero.put_map_annotation`: replace the key-value payload of
the map record with identifier `ma_id`, leaving all other records as they
are. -/
def put_map_ann (st : Store) (ma_id : Nat) (kv : List (String × String)) : Store :=
  { st with
      anns := st.anns.map (fun a => if a.id = ma_id then { a with kv := kv } else a) }

/-- The per-well branch of the loop body (source lines 63–75): query
existing map records under `NAMESPACE`; if none, post a new one and print
its identifier; otherwise warn, and either skip (no `force`) or overwrite
the first returned identifier (`ma_ids[0]`) in place (`force`). -/
def annotateWell (force : Bool) (st : Store) (well_id : Nat) (kv : List (String × String)) :
    Except RunError (Store × List Event) :=
  match get_map_ann_ids st well_id NAMESPACE with
  | [] =>
      let p := post_map_ann st well_id kv NAMESPACE
      .ok (p.1, [.posted p.2 well_id])
  | maId :: _ =>
      if force then
        .ok (put_map_ann st maId kv, [.warnExists well_id, .warnForce maId well_id])
      else
        .ok (st, [.warnExists well_id, .warnSkip well_id])

/-- One iteration of the loop (source lines 50–75): pop the structural
fields, convert the 1-based row/column to 0-based indices, resolve the
plate and the well (raising if the well is absent), then annotate. -/
def processRecord (force : Bool) (st : Store) (r : CsvRecord) :
    Except RunError (Store × List Event) := do
  let row_index : Int := r.row - 1
  let col_index : Int := r.column - 1
  let plate_id ← get_plate_id st r.plate_name
  match get_well_id st plate_id row_index col_index with
  | none => .error (.wellNotFound plate_id row_index col_index)
  | some well_id => annotateWell force st well_id r.rest

/-- The whole loop over the CSV data rows: sequential, an exception on any
row aborts the rest; events accumulate in order. -/
def processRows (force : Bool) (st : Store) : List CsvRecord → Except RunError (Store × List Event)
  | [] => .ok (st, [])
  | r :: rs => do
      let p ← processRecord force st r
      let q ← processRows force p.1 rs
      .ok (q.1, p.2 ++ q.2)

/-- The source's column check (lines 44–47): walk the required columns in
`DTYPES` order and raise on the first one absent from the CSV header. -/
def checkColumns (required : List String) (cols : List String) : Except RunError Unit :=
  match required with
  | [] => .ok ()
  | c :: cs => if cols.contains c then checkColumns cs cols else .error (.missingColumn c)

/-- Result of a successful run: final store, emitted events, and whether
`conn.close()` was reached. -/
structure RunResult where
  store : Store
  events : List Event
  connClosed : Bool
deriving DecidableEq, Repr

/-- `main` from the source: check columns, process every row, close the
connection.  (`conn.close()` is only reached when no row raised.) -/
def main (csv : Csv) (force : Bool) (st : Store) : Except RunError RunResult := do
  checkColumns DTYPES_cols csv.columns
  let p ← processRows force st csv.rows
  .ok ⟨p.1, p.2, true⟩

/-! ## Basic facts about the store operations -/

/-- The name query only looks at the plates of the store. -/
theorem get_plate_id_congr (st st2 : Store) (n : String) (h : st2.plates = st.plates) :
    get_plate_id st2 n = get_plate_id st n := by
  simp [get_plate_id, plateQuery, h]

/-- The well lookup only looks at the wells of the store. -/
theorem get_well_id_congr (st st2 : Store) (p : Nat) (r c : Int) (h : st2.wells = st.wells) :
    get_well_id st2 p r c = get_well_id st p r c := by
  simp [get_well_id, h]

/-- The record query is empty exactly when no stored record targets the
well under the namespace. -/
theorem get_map_ann_ids_eq_nil_iff (st : Store) (w : Nat) (ns : String) :
    get_map_ann_ids st w ns = [] ↔ ∀ a ∈ st.anns, ¬(a.wellId = w ∧ a.ns = ns) := by
  simp [get_map_ann_ids, annsAt, List.map_eq_nil_iff, List.filter_eq_nil_iff]

/-- Unfolding of the loop body: resolve the plate, then the well at the
decremented indices, then annotate. -/
theorem processRecord_eq (force : Bool) (st : Store) (r : CsvRecord) :
    processRecord force st r =
      match get_plate_id st r.plate_name with
      | .error e => .error e
      | .ok plate_id =>
        match get_well_id st plate_id (r.row - 1) (r.column - 1) with
        | none => .error (.wellNotFound plate_id (r.row - 1) (r.column - 1))
        | some well_id => annotateWell force st well_id r.rest := by
  cases h : get_plate_id st r.plate_name <;>
    simp [processRecord, h, bind, Except.bind]

/-- The annotating branch itself never raises. -/
theorem annotateWell_ne_error (force : Bool) (st : Store) (w : Nat)
    (kv : List (String × String)) (e : RunError) :
    annotateWell force st w kv ≠ .error e := by
  cases h : get_map_ann_ids st w NAMESPACE <;>
    simp [annotateWell, h] <;> cases force <;> simp

/-- The annotating branch never touches plates or wells. -/
theorem annotateWell_frame (force : Bool) (st : Store) (w : Nat)
    (kv : List (String × String)) (st' : Store) (evs : List Event)
    (h : annotateWell force st w kv = .ok (st', evs)) :
    st'.plates = st.plates ∧ st'.wells = st.wells := by
  cases hq : get_map_ann_ids st w NAMESPACE with
  | nil =>
      simp [annotateWell, hq, post_map_ann] at h
      simp [← h.1]
  | cons m ms =>
      cases force <;> simp_all [annotateWell, hq, put_map_ann] <;> simp [← h.1]

/-- Without `force`, the annotating branch only ever appends records:
every record present before is present after. -/
theorem annotateWell_false_mono (st : Store) (w : Nat)
    (kv : List (String × String)) (st' : Store) (evs : List Event)
    (h : annotateWell false st w kv = .ok (st', evs)) :
    ∀ a ∈ st.anns, a ∈ st'.anns := by
  cases hq : get_map_ann_ids st w NAMESPACE with
  | nil =>
      simp [annotateWell, hq, post_map_ann] at h
      intro a ha
      simp [← h.1, ha]
  | cons m ms =>
      simp [annotateWell, hq] at h
      intro a ha
      simp [← h.1, ha]

/-- After a successful no-`force` annotating step, the well carries a
record under the namespace. -/
theorem annotateWell_false_covers (st : Store) (w : Nat)
    (kv : List (String × String)) (st' : Store) (evs : List Event)
    (h : annotateWell false st w kv = .ok (st', evs)) :
    ∃ a ∈ st'.anns, a.wellId = w ∧ a.ns = NAMESPACE := by
  cases hq : get_map_ann_ids st w NAMESPACE with
  | nil =>
      simp [annotateWell, hq, post_map_ann] at h
      exact ⟨⟨st.nextAnnId, w, NAMESPACE, kv⟩, by simp [← h.1], rfl, rfl⟩
  | cons m ms =>
      simp [annotateWell, hq] at h
      have hne : get_map_ann_ids st w NAMESPACE ≠ [] := by simp [hq]
      rw [Ne, get_map_ann_ids_eq_nil_iff] at hne
      push_neg at hne
      obtain ⟨a, ha, hwa⟩ := hne
      exact ⟨a, by simp [← h.1, ha], hwa⟩

/-- Inversion of a successful loop iteration: both lookups succeeded and
the annotating branch produced the result. -/
theorem processRecord_ok_inv (force : Bool) (st : Store) (r : CsvRecord)
    (st' : Store) (evs : List Event)
    (h : processRecord force st r = .ok (st', evs)) :
    ∃ pid wid, get_plate_id st r.plate_name = .ok pid ∧
      get_well_id st pid (r.row - 1) (r.column - 1) = some wid ∧
      annotateWell force st wid r.rest = .ok (st', evs) := by
  rw [processRecord_eq] at h
  split at h
  · exact absurd h (by simp)
  · rename_i pid hp
    split at h
    · exact absurd h (by simp)
    · rename_i wid hw
      exact ⟨pid, wid, hp, hw, h⟩

/-- A successful loop iteration never touches plates or wells. -/
theorem processRecord_frame (force : Bool) (st : Store) (r : CsvRecord)
    (st' : Store) (evs : List Event)
    (h : processRecord force st r = .ok (st', evs)) :
    st'.plates = st.plates ∧ st'.wells = st.wells := by
  obtain ⟨pid, wid, _, _, ha⟩ := processRecord_ok_inv force st r st' evs h
  exact annotateWell_frame force st wid r.rest st' evs ha

/-- Without `force`, a successful loop iteration keeps every record that
was in the store. -/
theorem processRecord_false_mono (st : Store) (r : CsvRecord)
    (st' : Store) (evs : List Event)
    (h : processRecord false st r = .ok (st', evs)) :
    ∀ a ∈ st.anns, a ∈ st'.anns := by
  obtain ⟨pid, wid, _, _, ha⟩ := processRecord_ok_inv false st r st' evs h
  exact annotateWell_false_mono st wid r.rest st' evs ha

/-- A successful no-`force` run of the loop never touches plates or wells
and keeps every record that was in the store. -/
theorem processRows_false_inv (rows : List CsvRecord) :
    ∀ st st1 evs, processRows false st rows = .ok (st1, evs) →
      st1.plates = st.plates ∧ st1.wells = st.wells ∧ ∀ a ∈ st.anns, a ∈ st1.anns := by
  induction rows with
  | nil =>
      intro st st1 evs h
      simp [processRows] at h
      simp [← h.1]
  | cons r rs ih =>
      intro st st1 evs h
      simp only [processRows, bind, Except.bind] at h
      split at h
      · exact absurd h (by simp)
      · rename_i p h1
        split at h
        · exact absurd h (by simp)
        · rename_i q h2
          simp only [Except.ok.injEq, Prod.mk.injEq] at h
          obtain ⟨hfp, hfw⟩ := processRecord_frame false st r p.1 p.2 h1
          obtain ⟨hp1, hw1, hm1⟩ := ih p.1 q.1 q.2 h2
          refine ⟨?_, ?_, ?_⟩
          · rw [← h.1, hp1, hfp]
          · rw [← h.1, hw1, hfw]
          · intro a ha
            rw [← h.1]
            exact hm1 a (processRecord_false_mono st r p.1 p.2 h1 a ha)

/-- When the query finds an existing record and `force` is off, the branch
warns twice and returns the store unchanged. -/
theorem annotateWell_false_skip (st : Store) (w : Nat) (kv : List (String × String))
    (h : get_map_ann_ids st w NAMESPACE ≠ []) :
    annotateWell false st w kv = .ok (st, [.warnExists w, .warnSkip w]) := by
  cases hq : get_map_ann_ids st w NAMESPACE with
  | nil => exact absurd hq h
  | cons m ms => simp [annotateWell, hq]

/-- Rerunning the loop without `force` from any store that has the same
plates and wells and already holds every record of the first run's final
store is a no-op on the store. -/
theorem processRows_false_rerun (rows : List CsvRecord) :
    ∀ st st1 evs st2, processRows false st rows = .ok (st1, evs) →
      st2.plates = st.plates → st2.wells = st.wells →
      (∀ a ∈ st1.anns, a ∈ st2.anns) →
      ∃ evs2, processRows false st2 rows = .ok (st2, evs2) := by
  induction rows with
  | nil =>
      intro st st1 evs st2 _ _ _ _
      exact ⟨[], rfl⟩
  | cons r rs ih =>
      intro st st1 evs st2 h hp hw hm
      simp only [processRows, bind, Except.bind] at h
      split at h
      · exact absurd h (by simp)
      · rename_i p h1
        split at h
        · exact absurd h (by simp)
        · rename_i q h2
          simp only [Except.ok.injEq, Prod.mk.injEq] at h
          obtain ⟨pid, wid, hpid, hwid, hann⟩ :=
            processRecord_ok_inv false st r p.1 p.2 h1
          obtain ⟨a, hap, haw⟩ := annotateWell_false_covers st wid r.rest p.1 p.2 hann
          obtain ⟨hq1, hq2, hq3⟩ := processRows_false_inv rs p.1 q.1 q.2 h2
          have hast2 : a ∈ st2.anns := by
            apply hm
            rw [← h.1]
            exact hq3 a hap
          have hne : get_map_ann_ids st2 wid NAMESPACE ≠ [] := by
            rw [Ne, get_map_ann_ids_eq_nil_iff]
            push_neg
            exact ⟨a, hast2, haw⟩
          have hpid2 : get_plate_id st2 r.plate_name = .ok pid := by
            rw [get_plate_id_congr st st2 r.plate_name hp, hpid]
          have hwid2 : get_well_id st2 pid (r.row - 1) (r.column - 1) = some wid := by
            rw [get_well_id_congr st st2 pid (r.row - 1) (r.column - 1) hw, hwid]
          have hrec2 : processRecord false st2 r =
              .ok (st2, [.warnExists wid, .warnSkip wid]) := by
            rw [processRecord_eq, hpid2]
            simp only [hwid2]
            exact annotateWell_false_skip st2 wid r.rest hne
          obtain ⟨hfp, hfw⟩ := processRecord_frame false st r p.1 p.2 h1
          obtain ⟨evs2, hrs2⟩ := ih p.1 q.1 q.2 st2 h2
            (by rw [hp, ← hfp]) (by rw [hw, ← hfw])
            (fun a ha => hm a (by rw [← h.1]; exact ha))
          exact ⟨[.warnExists wid, .warnSkip wid] ++ evs2, by
            simp [processRows, bind, Except.bind, hrec2, hrs2]⟩

/-- The column check succeeds when every required column is present. -/
theorem checkColumns_ok (required cols : List String)
    (h : ∀ c ∈ required, c ∈ cols) :
    checkColumns required cols = .ok () := by
  induction required with
  | nil => rfl
  | cons c cs ih =>
      have hc : c ∈ cols := h c (by simp)
      rw [checkColumns, if_pos (by rwa [List.elem_iff])]
      exact ih (fun c hc => h c (by simp [hc]))

/-- The column check raises `missingColumn` on some required-but-absent
column whenever one exists. -/
theorem checkColumns_missing (required cols : List String) (c : String)
    (hc : c ∈ required) (hnc : c ∉ cols) :
    ∃ c', c' ∈ required ∧ c' ∉ cols ∧
      checkColumns required cols = .error (.missingColumn c') := by
  induction required with
  | nil => exact absurd hc (by simp)
  | cons d ds ih =>
      by_cases hd : d ∈ cols
      · have hcds : c ∈ ds := by
          rcases List.mem_cons.mp hc with h1 | h1
          · exact absurd (h1 ▸ hd) hnc
          · exact h1
        obtain ⟨c', h1, h2, h3⟩ := ih hcds
        refine ⟨c', by simp [h1], h2, ?_⟩
        rw [checkColumns, if_pos (by rwa [List.elem_iff]), h3]
      · refine ⟨d, by simp, hd, ?_⟩
        rw [checkColumns, if_neg (by rwa [List.elem_iff])]

/-- Inversion of a successful whole run. -/
theorem main_ok_inv (csv : Csv) (force : Bool) (st : Store) (res : RunResult)
    (h : main csv force st = .ok res) :
    checkColumns DTYPES_cols csv.columns = .ok () ∧
      processRows force st csv.rows = .ok (res.store, res.events) ∧
      res.connClosed = true := by
  simp only [main, bind, Except.bind] at h
  split at h
  · exact absurd h (by simp)
  · rename_i u h1
    split at h
    · exact absurd h (by simp)
    · rename_i p h2
      simp only [Except.ok.injEq] at h
      subst h
      exact ⟨by rw [h1], by rw [h2], rfl⟩

/-- A raising iteration after a successful prefix makes the whole loop
raise the same error, whatever rows follow. -/
theorem processRows_abort (force : Bool) (rows₁ : List CsvRecord) :
    ∀ st st1 evs r rows₂ e,
      processRows force st rows₁ = .ok (st1, evs) →
      processRecord force st1 r = .error e →
      processRows force st (rows₁ ++ r :: rows₂) = .error e := by
  induction rows₁ with
  | nil =>
      intro st st1 evs r rows₂ e h h2
      simp only [processRows, Except.ok.injEq, Prod.mk.injEq] at h
      rw [← h.1] at h2
      simp [processRows, bind, Except.bind, h2]
  | cons x xs ih =>
      intro st st1 evs r rows₂ e h h2
      simp only [processRows, bind, Except.bind] at h
      split at h
      · exact absurd h (by simp)
      · rename_i p h1
        split at h
        · exact absurd h (by simp)
        · rename_i q h3
          simp only [Except.ok.injEq, Prod.mk.injEq] at h
          have hrest := ih p.1 q.1 q.2 r rows₂ e h3 (by rw [h.1]; exact h2)
          simp [processRows, bind, Except.bind, h1, hrest]

/-- Every error an iteration can raise is a lookup error: a missing plate,
an ambiguous plate name, or a missing well. -/
theorem processRecord_error_inv (force : Bool) (st : Store) (r : CsvRecord) (e : RunError)
    (h : processRecord force st r = .error e) :
    (∃ n, e = .plateNotFound n) ∨ (∃ n, e = .plateAmbiguous n) ∨
      (∃ p ri ci, e = .wellNotFound p ri ci) := by
  rw [processRecord_eq] at h
  split at h
  · rename_i e' hp
    simp only [Except.error.injEq] at h
    subst h
    simp only [get_plate_id] at hp
    split at hp
    · simp only [Except.error.injEq] at hp
      exact Or.inl ⟨r.plate_name, hp.symm⟩
    · exact absurd hp (by simp)
    · simp only [Except.error.injEq] at hp
      exact Or.inr (Or.inl ⟨r.plate_name, hp.symm⟩)
  · rename_i pid hp
    split at h
    · simp only [Except.error.injEq] at h
      exact Or.inr (Or.inr ⟨pid, r.row - 1, r.column - 1, h.symm⟩)
    · rename_i wid hw
      exact absurd h (annotateWell_ne_error force st wid r.rest e)

/-! ## The invariant of the store -/

/-- Each (well, namespace) pair carries at most one map record. -/
def atMostOnePerWellNs (st : Store) : Prop :=
  ∀ w ns, (annsAt st w ns).length ≤ 1

/-- Mapping a function that does not change a predicate's verdict does not
change the length of the filtered list. -/
theorem length_filter_map_eq {α : Type} (f : α → α) (p : α → Bool)
    (hf : ∀ a, p (f a) = p a) (l : List α) :
    ((l.map f).filter p).length = (l.filter p).length := by
  induction l with
  | nil => rfl
  | cons a t ih =>
      simp only [List.map_cons, List.filter_cons, hf a]
      cases hp : p a <;> simp [hp, ih]

/-- Overwriting a record's payload does not change how many records any
(well, namespace) pair carries. -/
theorem annsAt_put (st : Store) (maId : Nat) (kv : List (String × String))
    (w : Nat) (ns : String) :
    (annsAt (put_map_ann st maId kv) w ns).length = (annsAt st w ns).length := by
  simp only [annsAt, put_map_ann]
  exact length_filter_map_eq _ _
    (fun a => by by_cases h : a.id = maId <;> simp [h]) st.anns

/-! ## Concrete fixtures -/

/-- A store with one plate named `PlateA`, one well at (0, 0), no records. -/
def stEx : Store := ⟨[⟨1, "PlateA"⟩], [⟨10, 1, 0, 0⟩], [], 100⟩

/-- The spec's example CSV data row. -/
def recEx : CsvRecord :=
  ⟨"PlateA", 1, 1, [("individual", "X"), ("concentration", "0.5"), ("compound", "Y")]⟩

/-- A CSV with all six required columns and the example row. -/
def csvEx : Csv := ⟨DTYPES_cols, [recEx]⟩

/-- The final state after running `main csvEx false stEx`. -/
def resEx : RunResult :=
  ⟨⟨[⟨1, "PlateA"⟩], [⟨10, 1, 0, 0⟩],
    [⟨100, 10, NAMESPACE, [("individual", "X"), ("concentration", "0.5"), ("compound", "Y")]⟩],
    101⟩,
   [.posted 100 10], true⟩

/-- Like `stEx` but the well already carries one record under the fixed
namespace. -/
def stEx2 : Store :=
  ⟨[⟨1, "PlateA"⟩], [⟨10, 1, 0, 0⟩], [⟨50, 10, NAMESPACE, [("individual", "old")]⟩], 100⟩

/-- Like `stEx` but the well carries two records under the fixed
namespace. -/
def stEx3 : Store :=
  ⟨[⟨1, "PlateA"⟩], [⟨10, 1, 0, 0⟩],
   [⟨50, 10, NAMESPACE, [("individual", "old")]⟩,
    ⟨51, 10, NAMESPACE, [("individual", "older")]⟩], 100⟩

/-- A store whose single plate holds a well at zero-based (2, 4). -/
def stEx35 : Store := ⟨[⟨1, "PlateA"⟩], [⟨20, 1, 2, 4⟩], [], 100⟩

/-- A CSV row addressing 1-based row 3, column 5. -/
def recEx35 : CsvRecord := ⟨"PlateA", 3, 5, [("individual", "X")]⟩

/-- A CSV row naming a plate absent from `stEx`. -/
def recBad : CsvRecord := ⟨"PlateB", 1, 1, [("individual", "X")]⟩

/-! ## The claims -/

/-- C1: a row whose plate resolves to exactly one plate and whose
(row-1, column-1) position resolves to a well with no record under the
fixed namespace makes the iteration append exactly one new record on that
well, with payload the row's fields minus plate_name/row/column, and
report the new identifier. -/
theorem claim1_creates_single_record (force : Bool) (st : Store) (r : CsvRecord)
    (pid wid : Nat)
    (hp : get_plate_id st r.plate_name = .ok pid)
    (hw : get_well_id st pid (r.row - 1) (r.column - 1) = some wid)
    (hq : get_map_ann_ids st wid NAMESPACE = []) :
    processRecord force st r =
      .ok ({ st with
              anns := st.anns ++ [⟨st.nextAnnId, wid, NAMESPACE, r.rest⟩],
              nextAnnId := st.nextAnnId + 1 },
           [Event.posted st.nextAnnId wid]) := by
  rw [processRecord_eq, hp]
  simp only [hw]
  simp [annotateWell, hq, post_map_ann]

/-- Witness for C1 at the spec's end-to-end example. -/
theorem claim1_witness :
    processRecord false stEx recEx =
      .ok ({ stEx with
              anns := stEx.anns ++ [⟨100, 10, NAMESPACE, recEx.rest⟩],
              nextAnnId := 101 },
           [Event.posted 100 10]) :=
  claim1_creates_single_record false stEx recEx 1 10 rfl rfl rfl

/-- C3: with `--force`, a well that already carries a record under the
fixed namespace gets that record's payload replaced in place (by the
existing identifier), with no second record created. -/
theorem claim3_force_overwrites_in_place (st : Store) (r : CsvRecord)
    (pid wid maId : Nat) (ms : List Nat)
    (hp : get_plate_id st r.plate_name = .ok pid)
    (hw : get_well_id st pid (r.row - 1) (r.column - 1) = some wid)
    (hq : get_map_ann_ids st wid NAMESPACE = maId :: ms) :
    processRecord true st r =
      .ok (put_map_ann st maId r.rest, [.warnExists wid, .warnForce maId wid]) ∧
    (put_map_ann st maId r.rest).anns.length = st.anns.length ∧
    ∀ a ∈ st.anns, a.id = maId →
      ({ a with kv := r.rest } : MapAnn) ∈ (put_map_ann st maId r.rest).anns := by
  refine ⟨?_, by simp [put_map_ann], ?_⟩
  · rw [processRecord_eq, hp]
    simp only [hw]
    simp [annotateWell, hq]
  · intro a ha hid
    simp only [put_map_ann, List.mem_map]
    exact ⟨a, ha, if_pos hid⟩

/-- Witness for C3 on a store whose well carries one existing record. -/
theorem claim3_witness :
    processRecord true stEx2 recEx =
      .ok (put_map_ann stEx2 50 recEx.rest, [.warnExists 10, .warnForce 50 10]) ∧
    (put_map_ann stEx2 50 recEx.rest).anns.length = stEx2.anns.length ∧
    ∀ a ∈ stEx2.anns, a.id = 50 →
      ({ a with kv := recEx.rest } : MapAnn) ∈ (put_map_ann stEx2 50 recEx.rest).anns :=
  claim3_force_overwrites_in_place stEx2 recEx 1 10 50 [] rfl rfl rfl

/-- Posting a record extends exactly the records of its own
(well, namespace) pair. -/
theorem annsAt_post (st : Store) (well_id : Nat) (kv : List (String × String))
    (w : Nat) (ns : String) :
    annsAt (post_map_ann st well_id kv NAMESPACE).1 w ns =
      annsAt st w ns ++
        (if well_id = w ∧ NAMESPACE = ns
          then [⟨st.nextAnnId, well_id, NAMESPACE, kv⟩] else []) := by
  simp only [annsAt, post_map_ann, List.filter_append]
  congr 1
  by_cases h1 : well_id = w <;> by_cases h2 : NAMESPACE = ns
  · subst h1; subst h2; simp [List.filter]
  · have e2 : (NAMESPACE == ns) = false := by simp [h2]
    subst h1
    simp [List.filter, e2, h2]
  · have e1 : (well_id == w) = false := by simp [h1]
    subst h2
    simp [List.filter, e1, h1]
  · have e1 : (well_id == w) = false := by simp [h1]
    simp [List.filter, e1, h1]

/-- C4: a successful iteration preserves the at-most-one-record-per
(well, namespace) invariant, and a new record is posted only when the
query for existing records under the namespace returned none. -/
theorem claim4_preserves_invariant (force : Bool) (st : Store) (r : CsvRecord)
    (st' : Store) (evs : List Event)
    (h : processRecord force st r = .ok (st', evs))
    (hinv : atMostOnePerWellNs st) :
    atMostOnePerWellNs st' ∧
    ∀ m w, Event.posted m w ∈ evs → get_map_ann_ids st w NAMESPACE = [] := by
  obtain ⟨pid, wid, hp, hw, ha⟩ := processRecord_ok_inv force st r st' evs h
  cases hq : get_map_ann_ids st wid NAMESPACE with
  | nil =>
      have ha' : annotateWell force st wid r.rest =
          .ok ((post_map_ann st wid r.rest NAMESPACE).1, [.posted st.nextAnnId wid]) := by
        simp [annotateWell, hq, post_map_ann]
      have hpair := ha'.symm.trans ha
      simp only [Except.ok.injEq, Prod.mk.injEq] at hpair
      obtain ⟨hst, hevs⟩ := hpair
      constructor
      · intro w ns
        rw [← hst, annsAt_post]
        by_cases hm : wid = w ∧ NAMESPACE = ns
        · rw [if_pos hm]
          obtain ⟨h1, h2⟩ := hm
          subst h1
          subst h2
          have hnil : annsAt st wid NAMESPACE = [] := by
            simpa [get_map_ann_ids, List.map_eq_nil_iff] using hq
          simp [hnil]
        · rw [if_neg hm]
          simpa using hinv w ns
      · intro m w hmw
        rw [← hevs] at hmw
        simp only [List.mem_singleton, Event.posted.injEq] at hmw
        rw [hmw.2]
        exact hq
  | cons m ms =>
      cases force with
      | false =>
          have ha' : annotateWell false st wid r.rest =
              .ok (st, [.warnExists wid, .warnSkip wid]) := by
            simp [annotateWell, hq]
          have hpair := ha'.symm.trans ha
          simp only [Except.ok.injEq, Prod.mk.injEq] at hpair
          obtain ⟨hst, hevs⟩ := hpair
          refine ⟨by rw [← hst]; exact hinv, ?_⟩
          intro m' w hmw
          rw [← hevs] at hmw
          simp at hmw
      | true =>
          have ha' : annotateWell true st wid r.rest =
              .ok (put_map_ann st m r.rest, [.warnExists wid, .warnForce m wid]) := by
            simp [annotateWell, hq]
          have hpair := ha'.symm.trans ha
          simp only [Except.ok.injEq, Prod.mk.injEq] at hpair
          obtain ⟨hst, hevs⟩ := hpair
          refine ⟨?_, ?_⟩
          · intro w ns
            rw [← hst, annsAt_put]
            exact hinv w ns
          · intro m' w hmw
            rw [← hevs] at hmw
            simp at hmw

/-- Witness for C4: the create step from the empty-record store preserves
the invariant, and the posted event only followed an empty query. -/
theorem claim4_witness :
    atMostOnePerWellNs resEx.store ∧
    ∀ m w, Event.posted m w ∈ [Event.posted 100 10] →
      get_map_ann_ids stEx w NAMESPACE = [] :=
  claim4_preserves_invariant false stEx recEx resEx.store [Event.posted 100 10] rfl
    (fun w ns => by simp [annsAt, stEx])

/-- C2: without `--force`, a well that already carries a record under the
fixed namespace is warned about and skipped with no write; hence a second
run of a successful no-`force` run leaves the store exactly as the first
run left it (at most one record per well, same content), and still
completes. -/
theorem claim2_noforce_skips_and_second_run_is_noop (csv : Csv) (st : Store)
    (res : RunResult) (h : main csv false st = .ok res) :
    (∀ st' wid kv, get_map_ann_ids st' wid NAMESPACE ≠ [] →
        annotateWell false st' wid kv = .ok (st', [.warnExists wid, .warnSkip wid])) ∧
    ∃ evs2, main csv false res.store = .ok ⟨res.store, evs2, true⟩ := by
  obtain ⟨hc, hrows, _⟩ := main_ok_inv csv false st res h
  refine ⟨fun st' wid kv hne => annotateWell_false_skip st' wid kv hne, ?_⟩
  obtain ⟨hp, hw, _⟩ := processRows_false_inv csv.rows st res.store res.events hrows
  obtain ⟨evs2, h2⟩ := processRows_false_rerun csv.rows st res.store res.events res.store
    hrows hp hw (fun a ha => ha)
  exact ⟨evs2, by simp [main, bind, Except.bind, hc, h2]⟩

/-- Witness for C2: rerunning the example CSV on the store the first run
produced leaves that store unchanged. -/
theorem claim2_witness :
    ∃ evs2, main csvEx false resEx.store = .ok ⟨resEx.store, evs2, true⟩ :=
  (claim2_noforce_skips_and_second_run_is_noop csvEx stEx resEx rfl).2

/-- C5: plate resolution returns an identifier exactly when exactly one
stored plate bears the name; zero matches raise `plateNotFound` and two or
more raise `plateAmbiguous`, each naming the plate. -/
theorem claim5_plate_resolution (st : Store) (n : String) :
    (∀ i, get_plate_id st n = .ok i ↔
        ∃ p, st.plates.filter (fun pl => pl.name == n) = [p] ∧ p.id = i) ∧
    (st.plates.filter (fun pl => pl.name == n) = [] →
        get_plate_id st n = .error (.plateNotFound n)) ∧
    (2 ≤ (st.plates.filter (fun pl => pl.name == n)).length →
        get_plate_id st n = .error (.plateAmbiguous n)) := by
  rcases hf : st.plates.filter (fun pl => pl.name == n) with _ | ⟨p, _ | ⟨q, t⟩⟩
  · refine ⟨?_, fun _ => by simp [get_plate_id, plateQuery, hf], ?_⟩
    · intro i
      simp [get_plate_id, plateQuery, hf]
    · intro h2
      rw [hf] at h2
      simp at h2
  · refine ⟨?_, by simp [hf], ?_⟩
    · intro i
      simp only [get_plate_id, plateQuery, hf, List.map_cons, List.map_nil]
      constructor
      · intro h
        simp at h
        exact ⟨p, rfl, h⟩
      · rintro ⟨p', hp', hi⟩
        simp at hp'
        rw [hp']
        simp [hi]
    · intro h2
      rw [hf] at h2
      simp at h2
  · refine ⟨?_, by simp [hf], fun _ => by simp [get_plate_id, plateQuery, hf]⟩
    intro i
    simp [get_plate_id, plateQuery, hf]

/-- Witness for C5: `PlateA` is stored exactly once, so resolution
returns its identifier. -/
theorem claim5_witness : get_plate_id stEx "PlateA" = .ok 1 :=
  ((claim5_plate_resolution stEx "PlateA").1 1).mpr ⟨⟨1, "PlateA"⟩, rfl, rfl⟩

/-- C6: the well lookup of every iteration uses the row and column each
decremented by one; in particular a row with row=3, column=5 is looked up
at row index 2 and column index 4. -/
theorem claim6_one_based_conversion (force : Bool) (st : Store) (r : CsvRecord)
    (pid : Nat) (hp : get_plate_id st r.plate_name = .ok pid) :
    (processRecord force st r =
      match get_well_id st pid (r.row - 1) (r.column - 1) with
      | none => .error (.wellNotFound pid (r.row - 1) (r.column - 1))
      | some wid => annotateWell force st wid r.rest) ∧
    (r.row = 3 → r.column = 5 →
      processRecord force st r =
        match get_well_id st pid 2 4 with
        | none => .error (.wellNotFound pid 2 4)
        | some wid => annotateWell force st wid r.rest) := by
  constructor
  · rw [processRecord_eq, hp]
  · intro h3 h5
    rw [processRecord_eq, hp, h3, h5]
    norm_num

/-- Witness for C6: a row with row=3, column=5 is resolved at indices
(2, 4). -/
theorem claim6_witness :
    processRecord false stEx35 recEx35 =
      match get_well_id stEx35 1 2 4 with
      | none => .error (.wellNotFound 1 2 4)
      | some wid => annotateWell false stEx35 wid recEx35.rest :=
  (claim6_one_based_conversion false stEx35 recEx35 1 rfl).2 rfl rfl

/-- C7: a CSV header missing any required column makes the run fail with a
`missingColumn` error naming a required-but-absent column, before any row
is processed and independently of the store. -/
theorem claim7_missing_column_aborts (cols : List String) (c : String)
    (hc : c ∈ DTYPES_cols) (hnc : c ∉ cols) :
    ∃ c', c' ∈ DTYPES_cols ∧ c' ∉ cols ∧
      ∀ (rows : List CsvRecord) (force : Bool) (st : Store),
        main ⟨cols, rows⟩ force st = .error (.missingColumn c') := by
  obtain ⟨c', h1, h2, h3⟩ := checkColumns_missing DTYPES_cols cols c hc hnc
  exact ⟨c', h1, h2, fun rows force st => by simp [main, bind, Except.bind, h3]⟩

/-- Witness for C7: a header with only plate_name and row fails naming a
missing column, whatever the rows and the store. -/
theorem claim7_witness :
    ∃ c', c' ∈ DTYPES_cols ∧ c' ∉ (["plate_name", "row"] : List String) ∧
      ∀ (rows : List CsvRecord) (force : Bool) (st : Store),
        main ⟨["plate_name", "row"], rows⟩ force st = .error (.missingColumn c') :=
  claim7_missing_column_aborts ["plate_name", "row"] "column" (by decide) (by decide)

/-- C8: a lookup failure on any row aborts the whole run with that error,
whatever rows follow; the error is always a lookup error (missing plate,
ambiguous plate, or missing well); and an existing-record conflict always
lets the iteration complete. -/
theorem claim8_row_failure_aborts_run (force : Bool) (st st1 : Store)
    (rows₁ : List CsvRecord) (r : CsvRecord) (rows₂ : List CsvRecord)
    (evs : List Event) (e : RunError)
    (h1 : processRows force st rows₁ = .ok (st1, evs))
    (h2 : processRecord force st1 r = .error e) :
    processRows force st (rows₁ ++ r :: rows₂) = .error e ∧
    ((∃ n, e = .plateNotFound n) ∨ (∃ n, e = .plateAmbiguous n) ∨
      (∃ p ri ci, e = .wellNotFound p ri ci)) ∧
    (∀ st' wid kv, get_map_ann_ids st' wid NAMESPACE ≠ [] →
      ∃ out, annotateWell force st' wid kv = .ok out) := by
  refine ⟨processRows_abort force rows₁ st st1 evs r rows₂ e h1 h2,
          processRecord_error_inv force st1 r e h2, ?_⟩
  intro st' wid kv hne
  cases hq : get_map_ann_ids st' wid NAMESPACE with
  | nil => exact absurd hq hne
  | cons m ms =>
      cases force with
      | false => exact ⟨(st', [.warnExists wid, .warnSkip wid]), by simp [annotateWell, hq]⟩
      | true =>
          exact ⟨(put_map_ann st' m kv, [.warnExists wid, .warnForce m wid]),
            by simp [annotateWell, hq]⟩

/-- Witness for C8: a row naming an absent plate aborts the run before a
following well-formed row is processed. -/
theorem claim8_witness :
    processRows false stEx ([] ++ recBad :: [recEx]) =
      .error (.plateNotFound "PlateB") ∧
    ((∃ n, (RunError.plateNotFound "PlateB") = .plateNotFound n) ∨
      (∃ n, (RunError.plateNotFound "PlateB") = .plateAmbiguous n) ∨
      (∃ p ri ci, (RunError.plateNotFound "PlateB") = .wellNotFound p ri ci)) ∧
    (∀ st' wid kv, get_map_ann_ids st' wid NAMESPACE ≠ [] →
      ∃ out, annotateWell false st' wid kv = .ok out) :=
  claim8_row_failure_aborts_run false stEx stEx [] recBad [recEx] [] (.plateNotFound "PlateB")
    rfl rfl

/-- C9: with `--force` and several records under the namespace on one
well, only the first queried identifier is overwritten; every record with
a different identifier is carried over unchanged. -/
theorem claim9_updates_only_first (st : Store) (r : CsvRecord)
    (pid wid m1 m2 : Nat) (ms : List Nat)
    (hp : get_plate_id st r.plate_name = .ok pid)
    (hw : get_well_id st pid (r.row - 1) (r.column - 1) = some wid)
    (hq : get_map_ann_ids st wid NAMESPACE = m1 :: m2 :: ms) :
    processRecord true st r =
      .ok (put_map_ann st m1 r.rest, [.warnExists wid, .warnForce m1 wid]) ∧
    (∀ a ∈ st.anns, a.id ≠ m1 → a ∈ (put_map_ann st m1 r.rest).anns) ∧
    (∀ a ∈ st.anns, a.id = m1 →
      ({ a with kv := r.rest } : MapAnn) ∈ (put_map_ann st m1 r.rest).anns) := by
  refine ⟨?_, ?_, ?_⟩
  · rw [processRecord_eq, hp]
    simp only [hw]
    simp [annotateWell, hq]
  · intro a ha hne
    simp only [put_map_ann, List.mem_map]
    exact ⟨a, ha, if_neg hne⟩
  · intro a ha hid
    simp only [put_map_ann, List.mem_map]
    exact ⟨a, ha, if_pos hid⟩

/-- Witness for C9 on a well carrying two records (identifiers 50, 51):
only 50 is rewritten, 51 survives unchanged. -/
theorem claim9_witness :
    processRecord true stEx3 recEx =
      .ok (put_map_ann stEx3 50 recEx.rest, [.warnExists 10, .warnForce 50 10]) ∧
    (∀ a ∈ stEx3.anns, a.id ≠ 50 → a ∈ (put_map_ann stEx3 50 recEx.rest).anns) ∧
    (∀ a ∈ stEx3.anns, a.id = 50 →
      ({ a with kv := recEx.rest } : MapAnn) ∈ (put_map_ann stEx3 50 recEx.rest).anns) :=
  claim9_updates_only_first stEx3 recEx 1 10 50 51 [] rfl rfl rfl

/-- C10: a CSV with all six required columns and no data rows makes the
run succeed with the store untouched, no events, and the connection
closed. -/
theorem claim10_empty_csv_succeeds (cols : List String) (force : Bool) (st : Store)
    (h : ∀ c ∈ DTYPES_cols, c ∈ cols) :
    main ⟨cols, []⟩ force st = .ok ⟨st, [], true⟩ := by
  have hc := checkColumns_ok DTYPES_cols cols h
  simp [main, bind, Except.bind, hc, processRows]

/-- Witness for C10 with exactly the six required columns. -/
theorem claim10_witness : main ⟨DTYPES_cols, []⟩ false stEx = .ok ⟨stEx, [], true⟩ :=
  claim10_empty_csv_succeeds DTYPES_cols false stEx (fun _ hc => hc)

end AnnotatePlate
